import Mathlib

/-!
Shallow embedding of the git-test runner (motlin/git-test-rust, src/lib.rs).

The program defines named test commands in git config, runs them against
commits, and records outcomes as git notes.  The embedding models the
run pipeline of src/lib.rs: Worktree creation/deletion (lines 297-345),
run_single_test (782-814), run_tests_for_commit (755-780), update_git_notes
(823-848) and cmd_run (709-753).

External effects (filesystem, git subcommands, subprocesses) are modelled
as an explicit trace of Effect values; the outcome of each external step
(whether a git command succeeds, whether the test subprocess launches and
with what exit code and output) is supplied by an environment value, so
the embedded functions are pure and executable.
-/

/-- A git repository, identified by its root directory (GitRepository, lib.rs 133-136). -/
structure GitRepository where
  root : String
deriving DecidableEq, Repr

/-- A named test and its shell command (GitTestCommand, lib.rs 138-143;
the repo field is dropped: every function here receives the repository
explicitly where it uses it). -/
structure GitTestCommand where
  test_name : String
  test_command : String
deriving DecidableEq, Repr

/-- Worktree configuration (WorktreeConfig, lib.rs 264-269): either the main
working copy is reused, or linked worktrees are created under a base path. -/
inductive WorktreeConfig where
  | main (repo : GitRepository)
  | linked (repo : GitRepository) (path : String)
deriving DecidableEq, Repr

/-- An actual worktree for one job (Worktree, lib.rs 271-281). -/
inductive Worktree where
  | main (repo : GitRepository)
  | linked (repo : GitRepository) (prefixPath : String) (sha : String) (test_name : String)
deriving DecidableEq, Repr

/-- WorktreeConfig::to_worktree (lib.rs 283-295). -/
def WorktreeConfig.to_worktree : WorktreeConfig → String → String → Worktree
  | .main repo, _, _ => .main repo
  | .linked repo path, sha, tname => .linked repo path sha tname

/-- Worktree::get_path (lib.rs 334-344): the main worktree is the repository
root; a linked worktree lives at prefix/sha/test_name (PathBuf::join of the
prefix with the formatted "sha/test_name" string; paths are modelled as
slash-separated strings). -/
def Worktree.get_path : Worktree → String
  | .main repo => repo.root
  | .linked _ p sha tname => p ++ "/" ++ sha ++ "/" ++ tname

/-- One observable external effect of the program. exec carries the working
directory and the (empty) environment manipulation: the source builds the
subprocess with Command::new and never clears or overrides any environment
variable, so the child inherits the parent environment exactly when
envCleared = false and envOverrides = []. -/
inductive Effect where
  | createDirAll (path : String)
  | git (args : List String)
  | exec (program : String) (args : List String) (cwd : String)
      (envCleared : Bool) (envOverrides : List (String × String))
deriving DecidableEq, Repr

/-- Worktree::create (lib.rs 298-318): a no-op for the main worktree; for a
linked worktree it creates the directory and runs git worktree add --detach.
gitOk says whether that git command exits successfully (run_git turns a
nonzero exit into an error, lib.rs 111-118); the effects are emitted either
way because the command is executed before its status is inspected. -/
def Worktree.create (w : Worktree) (gitOk : Bool) : Except String Unit × List Effect :=
  match w with
  | .main _ => (.ok (), [])
  | .linked _ _ sha _ =>
      let path := w.get_path
      let effs := [Effect.createDirAll path,
                   Effect.git ["worktree", "add", "--detach", path, sha]]
      if gitOk then (.ok (), effs) else (.error "Git command failed", effs)

/-- Worktree::delete (lib.rs 320-332): a no-op for the main worktree; for a
linked worktree it runs git worktree remove --force. -/
def Worktree.delete (w : Worktree) (gitOk : Bool) : Except String Unit × List Effect :=
  match w with
  | .main _ => (.ok (), [])
  | .linked _ _ _ _ =>
      let path := w.get_path
      let effs := [Effect.git ["worktree", "remove", "--force", path]]
      if gitOk then (.ok (), effs) else (.error "Git command failed", effs)

/-- Outcome of a subprocess that did launch: exit code and captured output.
The source captures stdout/stderr as byte vectors and converts them with
from_utf8_lossy (lib.rs 801-803); the embedding works with the converted
strings directly. -/
structure ExecResult where
  exit_code : Nat
  stdout : String
  stderr : String
deriving DecidableEq, Repr

/-- The environment one job runs against: whether the worktree-add git
command succeeds, whether the test subprocess launches (none models
Command::output itself failing, lib.rs 36-39) and its result when it does,
and whether the worktree-remove git command succeeds. -/
structure JobEnv where
  create_ok : Bool
  launch : Option ExecResult
  delete_ok : Bool
deriving DecidableEq, Repr

/-- TestResult (lib.rs 816-821). -/
structure TestResult where
  test_name : String
  success : Bool
  stdout : String
  stderr : String
deriving DecidableEq, Repr

/-- run_single_test (lib.rs 782-814): build the worktree from the config,
create it, run the test command through sh -c in the worktree directory,
tear the worktree down, and return the result.  Every question-mark early
return of the source is an .error branch here; note that on the branch
where the subprocess cannot be launched the source propagates the error
before reaching worktree.delete(). -/
def run_single_test (tc : GitTestCommand) (sha : String) (cfg : WorktreeConfig)
    (env : JobEnv) : Except String TestResult × List Effect :=
  let w := cfg.to_worktree sha tc.test_name
  let created := w.create env.create_ok
  match created.1 with
  | .error e => (.error e, created.2)
  | .ok _ =>
    let execEff := Effect.exec "sh" ["-c", tc.test_command] w.get_path false []
    match env.launch with
    | none => (.error "Failed to execute command", created.2 ++ [execEff])
    | some r =>
      let deleted := w.delete env.delete_ok
      let tr : TestResult :=
        { test_name := tc.test_name, success := r.exit_code == 0,
          stdout := r.stdout, stderr := r.stderr }
      match deleted.1 with
      | .error e => (.error e, created.2 ++ [execEff] ++ deleted.2)
      | .ok _ => (.ok tr, created.2 ++ [execEff] ++ deleted.2)

/-- Rust's collect::<Result<Vec<_>, _>>() over the joined task results
(lib.rs 774-779): the first error in order wins and every later element,
error or verdict, is discarded. -/
def collectResults : List (Except String TestResult) → Except String (List TestResult)
  | [] => .ok []
  | .error e :: _ => .error e
  | .ok r :: rest =>
      match collectResults rest with
      | .error e => .error e
      | .ok l => .ok (r :: l)

/-- run_tests_for_commit (lib.rs 755-780): spawn one task per test, all
concurrently, join them all, and collect the per-task results.  join_all
preserves the order of the tests.  The per-job effect traces interleave in
real time; since every claim proved below looks only at which effects occur
before the join point and at per-job traces, the pre-join segment is
represented canonically as the concatenation of the job traces.  Each
job's external outcomes are drawn from env keyed by its test name. -/
def run_tests_for_commit (tests : List GitTestCommand) (sha : String)
    (cfg : WorktreeConfig) (env : String → JobEnv) :
    Except String (List TestResult) × List Effect :=
  let jobs := tests.map fun tc => run_single_test tc sha cfg (env tc.test_name)
  (collectResults (jobs.map Prod.fst), (jobs.map Prod.snd).flatten)

/-- The worktrees of the jobs that run_tests_for_commit spawns for one
commit.  All of them are spawned (lib.rs 767-770) before any is awaited
(join_all, lib.rs 773), so all of a commit's jobs run concurrently;
conversely cmd_run awaits a commit's whole batch before starting the next
commit (lib.rs 746-750), so only same-commit jobs ever overlap in time. -/
def spawnedJobs (tests : List GitTestCommand) (sha : String) (cfg : WorktreeConfig) :
    List Worktree :=
  tests.map fun tc => cfg.to_worktree sha tc.test_name

/-- The pass/fail marker written into notes (lib.rs 829, 840). -/
def marker (success : Bool) : String := if success then "✓" else "✗"

/-- GitRepository::add_note (lib.rs 237-243): one git notes add -f command. -/
def addNote (ref object content : String) : Effect :=
  Effect.git ["notes", "--ref", ref, "add", "-f", "-m", content, object]

/-- The verdict-note loop of update_git_notes (lib.rs 828-836): one
add_note per result, under refs/notes/tests/<test_name>, attached to the
object spec commit^\x7btree\x7d, with the compact marker as content.  Each
add_note is awaited with a question mark, so the first failing git command
stops the loop: the commands issued so far (the earlier, successful notes
and the failing attempt itself) are in the trace, later notes are never
issued.  noteOk says, per (ref, object, content), whether that git notes
command exits successfully. -/
def writeVerdictNotes (commit : String) (noteOk : String → String → String → Bool) :
    List TestResult → Except String Unit × List Effect
  | [] => (.ok (), [])
  | r :: rest =>
      if noteOk ("refs/notes/tests/" ++ r.test_name) (commit ++ "^\x7btree\x7d")
          (marker r.success) then
        ((writeVerdictNotes commit noteOk rest).1,
          addNote ("refs/notes/tests/" ++ r.test_name) (commit ++ "^\x7btree\x7d")
              (marker r.success)
            :: (writeVerdictNotes commit noteOk rest).2)
      else
        (.error "Git command failed",
          [addNote ("refs/notes/tests/" ++ r.test_name) (commit ++ "^\x7btree\x7d")
            (marker r.success)])

/-- update_git_notes (lib.rs 823-848): the verdict notes, then one summary
note on the commit itself under refs/notes/commits listing
"<test name>: <marker>" per result.  The summary add_note also carries a
question mark (lib.rs 844-845), so it too can fail; it is only attempted
after every verdict note succeeded. -/
def update_git_notes (commit : String) (results : List TestResult)
    (noteOk : String → String → String → Bool) : Except String Unit × List Effect :=
  match writeVerdictNotes commit noteOk results with
  | (.error e, t) => (.error e, t)
  | (.ok _, t) =>
      if noteOk "refs/notes/commits" commit
          (String.intercalate "\n"
            (results.map fun r => r.test_name ++ ": " ++ marker r.success)) then
        (.ok (), t ++ [addNote "refs/notes/commits" commit
          (String.intercalate "\n"
            (results.map fun r => r.test_name ++ ": " ++ marker r.success))])
      else
        (.error "Git command failed", t ++ [addNote "refs/notes/commits" commit
          (String.intercalate "\n"
            (results.map fun r => r.test_name ++ ": " ++ marker r.success))])

/-- One iteration of cmd_run's commit loop (lib.rs 746-750): run the whole
batch for the commit, and if it succeeded write the notes; an error from
update_git_notes propagates like any other (the question mark at lib.rs
749).  The commit string itself is used as the sha
(GitSha::new(commit.clone()), lib.rs 747). -/
def processCommit (tests : List GitTestCommand) (commit : String)
    (cfg : WorktreeConfig) (env : String → JobEnv)
    (noteOk : String → String → String → Bool) : Except String Unit × List Effect :=
  match (run_tests_for_commit tests commit cfg env).1 with
  | .error e => (.error e, (run_tests_for_commit tests commit cfg env).2)
  | .ok results =>
      ((update_git_notes commit results noteOk).1,
        (run_tests_for_commit tests commit cfg env).2
          ++ (update_git_notes commit results noteOk).2)

/-- cmd_run's commit loop (lib.rs 746-750): commits are processed strictly
in sequence, and a question-mark error from any iteration stops the loop. -/
def processCommits (tests : List GitTestCommand) (cfg : WorktreeConfig)
    (env : String → String → JobEnv)
    (noteOk : String → String → String → Bool) :
    List String → Except String Unit × List Effect
  | [] => (.ok (), [])
  | c :: rest =>
      match (processCommit tests c cfg (env c) noteOk).1 with
      | .error e => (.error e, (processCommit tests c cfg (env c) noteOk).2)
      | .ok _ =>
          ((processCommits tests cfg env noteOk rest).1,
            (processCommit tests c cfg (env c) noteOk).2
              ++ (processCommits tests cfg env noteOk rest).2)

/-- Test selection in cmd_run (lib.rs 722-732): --test and --all are
mutually exclusive; --all takes every registered test; otherwise the named
test is looked up in the registry (the test.<name>.command git config
entries, read through list_tests/get_test_command). -/
def selectTests (registry : List GitTestCommand) (test : Option String) (all : Bool) :
    Except String (List GitTestCommand) :=
  if test.isSome && all then .error "Cannot specify both --test and --all"
  else if all then .ok registry
  else
    match test with
    | some name =>
        match registry.find? (fun tc => tc.test_name == name) with
        | some tc => .ok [tc]
        | none => .error ("Test '" ++ name ++ "' is not defined")
    | none => .error "Must specify either --test or --all"

/-- Path::is_absolute on unix: the path begins with a slash. -/
def isAbsolutePath (path : String) : Bool :=
  match path.data with
  | [] => false
  | c :: _ => c == '/'

/-- GitRepositoryWorktreeExt::to_linked_worktree_config (lib.rs 358-368):
a relative base path is made absolute against the repository root. -/
def to_linked_worktree_config (repo : GitRepository) (path : String) : WorktreeConfig :=
  if isAbsolutePath path then .linked repo path
  else .linked repo (repo.root ++ "/" ++ path)

/-- Worktree-config choice in cmd_run (lib.rs 734-738). -/
def makeWorktreeConfig (repo : GitRepository) : Option String → WorktreeConfig
  | some p => to_linked_worktree_config repo p
  | none => .main repo

/-- cmd_run (lib.rs 709-753).  The registry stands for the test.<name>.command
config entries and head for git rev-parse HEAD, both read from the
repository.  The flags force, forget, retest, keep_going, dry_run and
stdinFlag are the parameters of the same names of the source function;
the source body never reads any of them, and accordingly no right-hand
side here mentions them. -/
def cmd_run (repo : GitRepository) (registry : List GitTestCommand) (head : String)
    (test : Option String) (all force forget retest keep_going dry_run stdinFlag : Bool)
    (commits : List String) (worktreeOpt : Option String)
    (env : String → String → JobEnv)
    (noteOk : String → String → String → Bool) : Except String Unit × List Effect :=
  match selectTests registry test all with
  | .error e => (.error e, [])
  | .ok tests =>
      let cfg := makeWorktreeConfig repo worktreeOpt
      let actualCommits := if commits.isEmpty then [head] else commits
      processCommits tests cfg env noteOk actualCommits

/-- Recognizes a note write: every git notes invocation the program makes
has the exact shape of add_note (lib.rs 237-243). -/
def Effect.isNoteWrite : Effect → Bool
  | .git ["notes", "--ref", _, "add", "-f", "-m", _, _] => true
  | _ => false

/-- Recognizes the verdict note for one test name. -/
def Effect.isVerdictNoteFor (tname : String) : Effect → Bool
  | .git ["notes", "--ref", ref, "add", "-f", "-m", _, _] =>
      ref == "refs/notes/tests/" ++ tname
  | _ => false

/-- Recognizes a subprocess execution. -/
def Effect.isExec : Effect → Bool
  | .exec _ _ _ _ _ => true
  | _ => false

/-- Recognizes a git worktree add command. -/
def Effect.isWorktreeAdd : Effect → Bool
  | .git ("worktree" :: "add" :: _) => true
  | _ => false

/-- Recognizes a git worktree remove command. -/
def Effect.isWorktreeRemove : Effect → Bool
  | .git ("worktree" :: "remove" :: _) => true
  | _ => false

/-- Number of test-command executions in a trace. -/
def execCount (t : List Effect) : Nat := t.countP Effect.isExec

/-- Number of note writes in a trace. -/
def noteCount (t : List Effect) : Nat := t.countP Effect.isNoteWrite

/-- Modelled from the spec: the annotation mechanism (git notes) attaches a
note to the object a revision spec resolves to, and the glossary describes
verdicts as attached to the tree content hash.  A spec of the form
rev followed by the seven characters caret, brace, t, r, e, e, brace
dereferences to the tree of rev (treeOf maps each revision to its tree
hash); any other spec names its own object.  This resolution step happens
inside git, outside this repository's code. -/
def stripTreeSuffix (spec : String) : Option String :=
  if spec.data.length ≥ 7 ∧
      spec.data.drop (spec.data.length - 7) = ("^\x7btree\x7d" : String).data
  then some (String.mk (spec.data.take (spec.data.length - 7)))
  else none

/-- Modelled from the spec: see stripTreeSuffix. -/
def resolveObjectSpec (treeOf : String → String) (spec : String) : String :=
  match stripTreeSuffix spec with
  | some rev => treeOf rev
  | none => spec

theorem string_append_left_cancel {a b c : String} (h : a ++ b = a ++ c) : b = c := by
  have h2 : (a ++ b).data = (a ++ c).data := congrArg String.data h
  rw [String.data_append, String.data_append] at h2
  exact String.ext (List.append_cancel_left h2)

theorem stripTreeSuffix_append (commit : String) :
    stripTreeSuffix (commit ++ "^\x7btree\x7d") = some commit := by
  have h7 : ("^\x7btree\x7d" : String).data.length = 7 := by decide
  unfold stripTreeSuffix
  rw [String.data_append, List.length_append, h7]
  have hsub : commit.data.length + 7 - 7 = commit.data.length := by omega
  rw [hsub, List.drop_left, List.take_left, if_pos ⟨by omega, rfl⟩]

/-- C10: when no linked worktree is configured (the job runs in the main
working copy), both Worktree::create and Worktree::delete are no-ops: they
run no git command, perform no filesystem change, and succeed; the job's
path is the primary working copy itself, which is never checked out over
or removed. -/
theorem c10_main_worktree_noop (repo : GitRepository) (g1 g2 : Bool) :
    (Worktree.main repo).create g1 = (Except.ok (), []) ∧
    (Worktree.main repo).delete g2 = (Except.ok (), []) ∧
    (Worktree.main repo).get_path = repo.root :=
  ⟨rfl, rfl, rfl⟩

/-- C9: a test job that executes runs its command through a shell (sh -c)
in the worktree's directory with the environment inherited unchanged; exit
code 0 yields a passing verdict and any nonzero exit code a failing one,
and the subprocess's stdout and stderr are captured in full in the result. -/
theorem c9_subprocess_contract (tc : GitTestCommand) (sha : String)
    (cfg : WorktreeConfig) (env : JobEnv) (r : ExecResult)
    (hc : env.create_ok = true) (hl : env.launch = some r)
    (hd : env.delete_ok = true) :
    (run_single_test tc sha cfg env).1
      = Except.ok ⟨tc.test_name, r.exit_code == 0, r.stdout, r.stderr⟩ ∧
    (run_single_test tc sha cfg env).2.filter Effect.isExec
      = [Effect.exec "sh" ["-c", tc.test_command]
          (cfg.to_worktree sha tc.test_name).get_path false []] ∧
    (r.exit_code = 0 → (r.exit_code == 0) = true) ∧
    (r.exit_code ≠ 0 → (r.exit_code == 0) = false) := by
  refine ⟨?_, ?_, ?_, ?_⟩
  · cases cfg <;>
      simp [run_single_test, WorktreeConfig.to_worktree, Worktree.create,
        Worktree.delete, hc, hl, hd]
  · cases cfg <;>
      simp [run_single_test, WorktreeConfig.to_worktree, Worktree.create,
        Worktree.delete, Worktree.get_path, hc, hl, hd, Effect.isExec]
  · intro h; simp [h]
  · intro h; simp [h]

theorem c9_subprocess_contract_witness :
    (run_single_test ⟨"default", "true"⟩ "c1" (WorktreeConfig.main ⟨"/repo"⟩)
        ⟨true, some ⟨0, "out", "err"⟩, true⟩).1
      = Except.ok ⟨"default", true, "out", "err"⟩ :=
  (c9_subprocess_contract ⟨"default", "true"⟩ "c1" (WorktreeConfig.main ⟨"/repo"⟩)
    ⟨true, some ⟨0, "out", "err"⟩, true⟩ ⟨0, "out", "err"⟩ rfl rfl rfl).1

/-- C5 counterexample: a linked worktree whose test subprocess cannot be
launched.  run_single_test propagates the launch error before reaching
worktree.delete() (lib.rs 799, 806): the trace holds the worktree add but
no worktree remove, so the worktree is not destroyed on that exit path,
contradicting destruction on every exit path. -/
theorem c5_counterexample :
    (run_single_test ⟨"default", "make test"⟩ "abc"
        (WorktreeConfig.linked ⟨"/repo"⟩ "/repo/.worktrees")
        ⟨true, none, true⟩).1 = Except.error "Failed to execute command" ∧
    ((run_single_test ⟨"default", "make test"⟩ "abc"
        (WorktreeConfig.linked ⟨"/repo"⟩ "/repo/.worktrees")
        ⟨true, none, true⟩).2.countP Effect.isWorktreeRemove = 0 ∧
      (run_single_test ⟨"default", "make test"⟩ "abc"
        (WorktreeConfig.linked ⟨"/repo"⟩ "/repo/.worktrees")
        ⟨true, none, true⟩).2.countP Effect.isWorktreeAdd = 1) :=
  ⟨rfl, rfl, rfl⟩

/-- C5 (amended): a job that provisions a linked worktree creates it
immediately before the test command executes, and whenever the subprocess
launches — whether the test passes or fails, and whatever the outcome of
the removal itself — the worktree remove command is issued immediately
after execution; only on the path where the subprocess cannot be launched
is the worktree left in place. -/
theorem c5_amended_worktree_lifecycle (repo : GitRepository) (base : String)
    (tc : GitTestCommand) (sha : String) (env : JobEnv) (r : ExecResult)
    (hc : env.create_ok = true) (hl : env.launch = some r) :
    (run_single_test tc sha (WorktreeConfig.linked repo base) env).2
      = [Effect.createDirAll (base ++ "/" ++ sha ++ "/" ++ tc.test_name),
         Effect.git ["worktree", "add", "--detach",
           base ++ "/" ++ sha ++ "/" ++ tc.test_name, sha],
         Effect.exec "sh" ["-c", tc.test_command]
           (base ++ "/" ++ sha ++ "/" ++ tc.test_name) false [],
         Effect.git ["worktree", "remove", "--force",
           base ++ "/" ++ sha ++ "/" ++ tc.test_name]] := by
  cases hdel : env.delete_ok <;>
    simp [run_single_test, WorktreeConfig.to_worktree, Worktree.create,
      Worktree.delete, Worktree.get_path, hc, hl, hdel]

theorem c5_amended_witness :
    (run_single_test ⟨"default", "false"⟩ "abc"
        (WorktreeConfig.linked ⟨"/repo"⟩ "/wt") ⟨true, some ⟨1, "", ""⟩, true⟩).2
      = [Effect.createDirAll ("/wt" ++ "/" ++ "abc" ++ "/" ++ "default"),
         Effect.git ["worktree", "add", "--detach",
           "/wt" ++ "/" ++ "abc" ++ "/" ++ "default", "abc"],
         Effect.exec "sh" ["-c", "false"]
           ("/wt" ++ "/" ++ "abc" ++ "/" ++ "default") false [],
         Effect.git ["worktree", "remove", "--force",
           "/wt" ++ "/" ++ "abc" ++ "/" ++ "default"]] :=
  c5_amended_worktree_lifecycle ⟨"/repo"⟩ "/wt" ⟨"default", "false"⟩ "abc"
    ⟨true, some ⟨1, "", ""⟩, true⟩ ⟨1, "", ""⟩ rfl rfl

/-- C6 counterexample: with the main working copy (isolation not requested)
and two defined tests, run_tests_for_commit spawns both jobs for the same
commit concurrently — all of a commit's jobs are spawned before any is
awaited — and both use the repository root as their path: two
simultaneously running jobs share a worktree path, and more than one job
runs at a time. -/
theorem c6_counterexample :
    (spawnedJobs [⟨"t1", "cmd1"⟩, ⟨"t2", "cmd2"⟩] "c1"
        (WorktreeConfig.main ⟨"/repo"⟩)).length = 2 ∧
    (spawnedJobs [⟨"t1", "cmd1"⟩, ⟨"t2", "cmd2"⟩] "c1"
        (WorktreeConfig.main ⟨"/repo"⟩)).map Worktree.get_path
      = ["/repo", "/repo"] := by
  decide

/-- C6 (amended): in linked-worktree mode, jobs that run simultaneously —
always jobs of one commit, since cmd_run awaits each commit's batch before
the next — get pairwise distinct paths base/<commit>/<test-name> for
distinct test names; when isolation is not requested, all of a commit's
jobs are spawned concurrently and every one of them uses the primary
working copy's path. -/
theorem c6_amended_paths (repo : GitRepository) (base sha t1 t2 : String)
    (tests : List GitTestCommand) (h : t1 ≠ t2) :
    (Worktree.linked repo base sha t1).get_path
      ≠ (Worktree.linked repo base sha t2).get_path ∧
    (spawnedJobs tests sha (WorktreeConfig.main repo)).map Worktree.get_path
      = tests.map fun _ => repo.root := by
  constructor
  · intro hp
    exact h (string_append_left_cancel hp)
  · simp [spawnedJobs, List.map_map, Function.comp,
      WorktreeConfig.to_worktree, Worktree.get_path]

theorem c6_amended_witness :
    (Worktree.linked ⟨"/repo"⟩ "/wt" "c1" "t1").get_path
      ≠ (Worktree.linked ⟨"/repo"⟩ "/wt" "c1" "t2").get_path ∧
    (spawnedJobs [⟨"t1", "x"⟩] "c1" (WorktreeConfig.main ⟨"/repo"⟩)).map
        Worktree.get_path
      = [(⟨"t1", "x"⟩ : GitTestCommand)].map
          fun _ => (⟨"/repo"⟩ : GitRepository).root :=
  c6_amended_paths ⟨"/repo"⟩ "/wt" "c1" "t1" "t2" [⟨"t1", "x"⟩] (by decide)

theorem notes_ref_ne (t : String) : "refs/notes/commits" ≠ "refs/notes/tests/" ++ t := by
  intro h
  have h2 : ("refs/notes/commits" : String).data
      = ("refs/notes/tests/" : String).data ++ t.data := by
    rw [h, String.data_append]
  have h17 : ("refs/notes/tests/" : String).data.length = 17 := by decide
  have h3 : ("refs/notes/commits" : String).data.take 17
      = ("refs/notes/tests/" : String).data := by
    rw [h2, List.take_left' h17]
  exact absurd h3 (by decide)

theorem string_append_beq (a x y : String) : (a ++ x == a ++ y) = (x == y) := by
  by_cases hxy : x = y
  · subst hxy; simp
  · have hne : a ++ x ≠ a ++ y := fun hc => hxy (string_append_left_cancel hc)
    rw [beq_eq_false_iff_ne.mpr hxy, beq_eq_false_iff_ne.mpr hne]

theorem writeVerdictNotes_all_ok (commit : String)
    (noteOk : String → String → String → Bool) (results : List TestResult)
    (hok : ∀ ref obj content, noteOk ref obj content = true) :
    writeVerdictNotes commit noteOk results
      = (.ok (), results.map fun r =>
          addNote ("refs/notes/tests/" ++ r.test_name) (commit ++ "^\x7btree\x7d")
            (marker r.success)) := by
  induction results with
  | nil => rfl
  | cons r rest ih =>
      unfold writeVerdictNotes
      simp only [hok, if_true, ih, List.map_cons]

theorem update_git_notes_all_ok (commit : String) (results : List TestResult)
    (noteOk : String → String → String → Bool)
    (hok : ∀ ref obj content, noteOk ref obj content = true) :
    update_git_notes commit results noteOk
      = (.ok (), (results.map fun r =>
            addNote ("refs/notes/tests/" ++ r.test_name) (commit ++ "^\x7btree\x7d")
              (marker r.success))
          ++ [addNote "refs/notes/commits" commit
              (String.intercalate "\n"
                (results.map fun r => r.test_name ++ ": " ++ marker r.success))]) := by
  unfold update_git_notes
  rw [writeVerdictNotes_all_ok commit noteOk results hok]
  simp only [hok, if_true]

/-- C2: for every completed test job whose note writes succeed,
update_git_notes issues exactly one verdict annotation per (test name,
tree): namespaced by the test name under refs/notes/tests/, attached to
the object the commit-tree spec resolves to — the tree's content hash, not
the commit — with a compact pass/fail marker as content.  The test names
are pairwise distinct because they are distinct git config keys
(test.<name>.command). -/
theorem c2_one_verdict_note_per_test_tree (commit : String)
    (results : List TestResult) (treeOf : String → String) (r : TestResult)
    (noteOk : String → String → String → Bool)
    (hok : ∀ ref obj content, noteOk ref obj content = true)
    (hnodup : (results.map TestResult.test_name).Nodup) (hr : r ∈ results) :
    (update_git_notes commit results noteOk).2.countP
        (Effect.isVerdictNoteFor r.test_name) = 1 ∧
    addNote ("refs/notes/tests/" ++ r.test_name) (commit ++ "^\x7btree\x7d")
        (marker r.success) ∈ (update_git_notes commit results noteOk).2 ∧
    resolveObjectSpec treeOf (commit ++ "^\x7btree\x7d") = treeOf commit ∧
    (treeOf commit ≠ commit →
      resolveObjectSpec treeOf (commit ++ "^\x7btree\x7d") ≠ commit) ∧
    (marker r.success = "✓" ∨ marker r.success = "✗") := by
  have hresolve : resolveObjectSpec treeOf (commit ++ "^\x7btree\x7d") = treeOf commit := by
    simp [resolveObjectSpec, stripTreeSuffix_append]
  have hupd : (update_git_notes commit results noteOk).2
      = (results.map fun x =>
          addNote ("refs/notes/tests/" ++ x.test_name) (commit ++ "^\x7btree\x7d")
            (marker x.success))
        ++ [addNote "refs/notes/commits" commit
            (String.intercalate "\n"
              (results.map fun x => x.test_name ++ ": " ++ marker x.success))] := by
    rw [update_git_notes_all_ok commit results noteOk hok]
  refine ⟨?_, ?_, hresolve, ?_, ?_⟩
  · rw [hupd]
    rw [List.countP_append]
    have hsummary : (List.countP (Effect.isVerdictNoteFor r.test_name)
        [addNote "refs/notes/commits" commit
          (String.intercalate "\n"
            (results.map fun x => x.test_name ++ ": " ++ marker x.success))]) = 0 := by
      simp [List.countP, List.countP.go, addNote, Effect.isVerdictNoteFor,
        beq_eq_false_iff_ne.mpr (notes_ref_ne r.test_name)]
    rw [hsummary, Nat.add_zero]
    rw [List.countP_map]
    have hfun : ∀ x : TestResult,
        (Effect.isVerdictNoteFor r.test_name ∘ fun x : TestResult =>
          addNote ("refs/notes/tests/" ++ x.test_name) (commit ++ "^\x7btree\x7d")
            (marker x.success)) x
        = (x.test_name == r.test_name) := by
      intro x
      simp only [Function.comp, addNote, Effect.isVerdictNoteFor]
      exact string_append_beq "refs/notes/tests/" x.test_name r.test_name
    rw [List.countP_congr fun x _ => by rw [hfun x]]
    have hmem : r.test_name ∈ results.map TestResult.test_name :=
      List.mem_map_of_mem TestResult.test_name hr
    calc List.countP (fun x : TestResult => x.test_name == r.test_name) results
        = List.countP (fun n : String => n == r.test_name)
            (results.map TestResult.test_name) := by
          rw [List.countP_map]; rfl
      _ = (results.map TestResult.test_name).count r.test_name := rfl
      _ = 1 := List.count_eq_one_of_mem hnodup hmem
  · rw [hupd]
    exact List.mem_append_left _ (List.mem_map_of_mem _ hr)
  · intro hne
    rw [hresolve]
    exact hne
  · cases hs : r.success <;> simp [marker]

theorem c2_one_verdict_note_witness :
    (update_git_notes "c1" [⟨"default", true, "", ""⟩] (fun _ _ _ => true)).2.countP
        (Effect.isVerdictNoteFor "default") = 1 ∧
    addNote ("refs/notes/tests/" ++ "default") ("c1" ++ "^\x7btree\x7d")
        (marker true)
      ∈ (update_git_notes "c1" [⟨"default", true, "", ""⟩] (fun _ _ _ => true)).2 ∧
    resolveObjectSpec (fun c => "tree-of-" ++ c) ("c1" ++ "^\x7btree\x7d")
      = (fun c => "tree-of-" ++ c) "c1" ∧
    ((fun c => "tree-of-" ++ c) "c1" ≠ "c1" →
      resolveObjectSpec (fun c => "tree-of-" ++ c) ("c1" ++ "^\x7btree\x7d") ≠ "c1") ∧
    (marker true = "✓" ∨ marker true = "✗") :=
  c2_one_verdict_note_per_test_tree "c1" [⟨"default", true, "", ""⟩]
    (fun c => "tree-of-" ++ c) ⟨"default", true, "", ""⟩ (fun _ _ _ => true)
    (fun _ _ _ => rfl) (by decide) (by decide)

theorem collectResults_ok_length (l : List (Except String TestResult))
    (rs : List TestResult) (h : collectResults l = .ok rs) : rs.length = l.length := by
  induction l generalizing rs with
  | nil =>
      simp only [collectResults, Except.ok.injEq] at h
      subst h; rfl
  | cons x xs ih =>
      cases x with
      | error e => simp [collectResults] at h
      | ok r =>
          simp only [collectResults] at h
          cases hc : collectResults xs with
          | error e => rw [hc] at h; exact absurd h (by simp)
          | ok l' =>
              rw [hc] at h
              simp only [Except.ok.injEq] at h
              subst h
              simp [ih l' hc]

/-- C8: for a commit whose batch completes with results and whose note
writes succeed, the consolidated summary note is written strictly after
every effect of that commit's jobs (the batch trace precedes the note
writes, and the summary is the very last write), there is exactly one
result per scheduled test, and the summary lists exactly one entry
"<test name>: <marker>" per result. -/
theorem c8_summary_after_all_jobs (tests : List GitTestCommand) (commit : String)
    (cfg : WorktreeConfig) (env : String → JobEnv) (results : List TestResult)
    (noteOk : String → String → String → Bool)
    (hok : ∀ ref obj content, noteOk ref obj content = true)
    (h : (run_tests_for_commit tests commit cfg env).1 = .ok results) :
    results.length = tests.length ∧
    (processCommit tests commit cfg env noteOk).2
      = (run_tests_for_commit tests commit cfg env).2
          ++ (update_git_notes commit results noteOk).2 ∧
    (processCommit tests commit cfg env noteOk).2.getLast?
      = some (addNote "refs/notes/commits" commit
          (String.intercalate "\n"
            (results.map fun r => r.test_name ++ ": " ++ marker r.success))) ∧
    (results.map fun r => r.test_name ++ ": " ++ marker r.success).length
      = tests.length := by
  have hlen : results.length = tests.length := by
    have h2 := collectResults_ok_length _ _ h
    simpa using h2
  have htrace : (processCommit tests commit cfg env noteOk).2
      = (run_tests_for_commit tests commit cfg env).2
          ++ (update_git_notes commit results noteOk).2 := by
    unfold processCommit
    rw [h]
  have hupd : (update_git_notes commit results noteOk).2
      = (results.map fun r =>
          addNote ("refs/notes/tests/" ++ r.test_name) (commit ++ "^\x7btree\x7d")
            (marker r.success))
        ++ [addNote "refs/notes/commits" commit
            (String.intercalate "\n"
              (results.map fun r => r.test_name ++ ": " ++ marker r.success))] := by
    rw [update_git_notes_all_ok commit results noteOk hok]
  refine ⟨hlen, htrace, ?_, ?_⟩
  · rw [htrace, hupd]
    rw [List.getLast?_append_of_ne_nil _ (by simp), List.getLast?_concat]
  · simpa using hlen

theorem c8_summary_witness :
    ([(⟨"default", true, "", ""⟩ : TestResult)].length
        = [(⟨"default", "true"⟩ : GitTestCommand)].length) ∧
    (processCommit [⟨"default", "true"⟩] "c1" (WorktreeConfig.main ⟨"/repo"⟩)
        (fun _ => ⟨true, some ⟨0, "", ""⟩, true⟩) (fun _ _ _ => true)).2
      = (run_tests_for_commit [⟨"default", "true"⟩] "c1"
            (WorktreeConfig.main ⟨"/repo"⟩)
            (fun _ => ⟨true, some ⟨0, "", ""⟩, true⟩)).2
          ++ (update_git_notes "c1" [⟨"default", true, "", ""⟩]
              (fun _ _ _ => true)).2 ∧
    (processCommit [⟨"default", "true"⟩] "c1" (WorktreeConfig.main ⟨"/repo"⟩)
        (fun _ => ⟨true, some ⟨0, "", ""⟩, true⟩) (fun _ _ _ => true)).2.getLast?
      = some (addNote "refs/notes/commits" "c1"
          (String.intercalate "\n"
            ([(⟨"default", true, "", ""⟩ : TestResult)].map
              fun r => r.test_name ++ ": " ++ marker r.success))) ∧
    ([(⟨"default", true, "", ""⟩ : TestResult)].map
        (fun r => r.test_name ++ ": " ++ marker r.success)).length
      = [(⟨"default", "true"⟩ : GitTestCommand)].length :=
  c8_summary_after_all_jobs [⟨"default", "true"⟩] "c1"
    (WorktreeConfig.main ⟨"/repo"⟩) (fun _ => ⟨true, some ⟨0, "", ""⟩, true⟩)
    [⟨"default", true, "", ""⟩] (fun _ _ _ => true) (fun _ _ _ => rfl) rfl

theorem run_single_test_no_notes (tc : GitTestCommand) (sha : String)
    (cfg : WorktreeConfig) (env : JobEnv) :
    noteCount (run_single_test tc sha cfg env).2 = 0 := by
  cases cfg <;> cases hc : env.create_ok <;> cases hl : env.launch <;>
      cases hd : env.delete_ok <;>
    simp [run_single_test, WorktreeConfig.to_worktree, Worktree.create,
      Worktree.delete, noteCount, Effect.isNoteWrite, hc, hl, hd, List.countP_cons]

theorem run_tests_for_commit_no_notes (tests : List GitTestCommand) (sha : String)
    (cfg : WorktreeConfig) (env : String → JobEnv) :
    noteCount (run_tests_for_commit tests sha cfg env).2 = 0 := by
  induction tests with
  | nil => rfl
  | cons t ts ih =>
      have h1 := run_single_test_no_notes t sha cfg (env t.test_name)
      have ih2 : List.countP Effect.isNoteWrite
          (((ts.map fun tc => run_single_test tc sha cfg (env tc.test_name)).map
            Prod.snd).flatten) = 0 := ih
      show List.countP Effect.isNoteWrite
          ((((t :: ts).map fun tc =>
            run_single_test tc sha cfg (env tc.test_name)).map Prod.snd).flatten) = 0
      simp only [List.map_cons, List.flatten_cons, List.countP_append]
      unfold noteCount at h1
      rw [h1, ih2]

theorem noteCount_update_git_notes (commit : String) (results : List TestResult)
    (noteOk : String → String → String → Bool)
    (hok : ∀ ref obj content, noteOk ref obj content = true) :
    noteCount (update_git_notes commit results noteOk).2 = results.length + 1 := by
  have hupd : (update_git_notes commit results noteOk).2
      = (results.map fun r =>
          addNote ("refs/notes/tests/" ++ r.test_name) (commit ++ "^\x7btree\x7d")
            (marker r.success))
        ++ [addNote "refs/notes/commits" commit
            (String.intercalate "\n"
              (results.map fun r => r.test_name ++ ": " ++ marker r.success))] := by
    rw [update_git_notes_all_ok commit results noteOk hok]
  rw [hupd]
  unfold noteCount
  rw [List.countP_append]
  have h1 : List.countP Effect.isNoteWrite
      (results.map fun r => addNote ("refs/notes/tests/" ++ r.test_name)
        (commit ++ "^\x7btree\x7d") (marker r.success)) = results.length := by
    rw [List.countP_map]
    exact List.countP_eq_length.mpr fun a _ => rfl
  have h2 : List.countP Effect.isNoteWrite
      [addNote "refs/notes/commits" commit
        (String.intercalate "\n"
          (results.map fun r => r.test_name ++ ": " ++ marker r.success))] = 1 := rfl
  rw [h1, h2]

theorem collectResults_isOk (l : List (Except String TestResult)) :
    (collectResults l).isOk = l.all Except.isOk := by
  induction l with
  | nil => rfl
  | cons x xs ih =>
      cases x with
      | error e => simp [collectResults, Except.isOk, Except.toBool]
      | ok r =>
          simp only [collectResults, List.all_cons]
          cases hc : collectResults xs with
          | error e => rw [hc] at ih; simp [Except.isOk, Except.toBool, ← ih]
          | ok l' => rw [hc] at ih; simp [Except.isOk, Except.toBool, ← ih]

theorem except_error_of_isOk_false {ε α : Type} (x : Except ε α)
    (h : x.isOk = false) : ∃ e, x = .error e := by
  cases x with
  | error e => exact ⟨e, rfl⟩
  | ok v => simp [Except.isOk, Except.toBool] at h

theorem except_ok_of_isOk_true {ε α : Type} (x : Except ε α)
    (h : x.isOk = true) : ∃ v, x = .ok v := by
  cases x with
  | error e => simp [Except.isOk, Except.toBool] at h
  | ok v => exact ⟨v, rfl⟩

/-- C7 (amended): a test failure (nonzero exit code) is scoped to its job —
when every job completes without an infrastructure error the commit's batch
succeeds with one verdict per test, pass or fail, and, when the note writes
succeed, all notes are written.  A provision or launch error in any single
job, however, errors the whole batch: the commit's other verdicts are
discarded, no note command is issued for that commit, and the commit loop
stops there with no effect for any later commit — regardless of keep_going,
which cmd_run ignores.  A store error (a failing add_note) likewise stops
the run at that commit regardless of keep_going: the run errors, the only
effects after the batch are the note commands issued up to and including
the failing one — verdict notes written before it remain, later notes and
the summary are never issued — and no effect occurs for any later commit. -/
theorem c7_amended_error_scope (tests : List GitTestCommand) (c : String)
    (rest : List String) (cfg : WorktreeConfig) (envAll : String → String → JobEnv)
    (noteOk : String → String → String → Bool) :
    ((∀ tc ∈ tests,
        ((run_single_test tc c cfg (envAll c tc.test_name)).1).isOk = true) →
      (∀ ref obj content, noteOk ref obj content = true) →
      ∃ results, (run_tests_for_commit tests c cfg (envAll c)).1 = Except.ok results ∧
        results.length = tests.length ∧
        noteCount (processCommit tests c cfg (envAll c) noteOk).2
          = tests.length + 1) ∧
    ((∃ tc ∈ tests,
        ((run_single_test tc c cfg (envAll c tc.test_name)).1).isOk = false) →
      noteCount (processCommits tests cfg envAll noteOk (c :: rest)).2 = 0 ∧
        (processCommits tests cfg envAll noteOk (c :: rest)).2
          = (run_tests_for_commit tests c cfg (envAll c)).2) ∧
    (∀ results e,
      (run_tests_for_commit tests c cfg (envAll c)).1 = Except.ok results →
      (update_git_notes c results noteOk).1 = Except.error e →
      (processCommits tests cfg envAll noteOk (c :: rest)).1 = Except.error e ∧
        (processCommits tests cfg envAll noteOk (c :: rest)).2
          = (run_tests_for_commit tests c cfg (envAll c)).2
              ++ (update_git_notes c results noteOk).2) := by
  refine ⟨?_, ?_, ?_⟩
  · intro hall hok
    have hL : ((tests.map fun tc =>
        run_single_test tc c cfg (envAll c tc.test_name)).map Prod.fst).all
          Except.isOk = true := by
      rw [List.all_eq_true]
      intro x hx
      simp only [List.map_map, List.mem_map, Function.comp] at hx
      obtain ⟨tc, htc, rfl⟩ := hx
      exact hall tc htc
    have hOk : ((run_tests_for_commit tests c cfg (envAll c)).1).isOk = true := by
      show (collectResults _).isOk = true
      rw [collectResults_isOk]
      exact hL
    obtain ⟨results, hres⟩ := except_ok_of_isOk_true _ hOk
    have hlen : results.length = tests.length := by
      have h2 := collectResults_ok_length _ _ hres
      simpa using h2
    refine ⟨results, hres, hlen, ?_⟩
    have htrace : (processCommit tests c cfg (envAll c) noteOk).2
        = (run_tests_for_commit tests c cfg (envAll c)).2
            ++ (update_git_notes c results noteOk).2 := by
      unfold processCommit
      rw [hres]
    rw [htrace]
    unfold noteCount
    rw [List.countP_append]
    have h0 := run_tests_for_commit_no_notes tests c cfg (envAll c)
    unfold noteCount at h0
    rw [h0]
    have h1 := noteCount_update_git_notes c results noteOk hok
    unfold noteCount at h1
    rw [Nat.zero_add, h1, hlen]
  · rintro ⟨tc, htc, hbad⟩
    have hL : ((tests.map fun tc =>
        run_single_test tc c cfg (envAll c tc.test_name)).map Prod.fst).all
          Except.isOk = false := by
      rw [List.all_eq_false]
      refine ⟨(run_single_test tc c cfg (envAll c tc.test_name)).1, ?_, by simp [hbad]⟩
      simp only [List.map_map, List.mem_map, Function.comp]
      exact ⟨tc, htc, rfl⟩
    have hOk : ((run_tests_for_commit tests c cfg (envAll c)).1).isOk = false := by
      show (collectResults _).isOk = false
      rw [collectResults_isOk]
      exact hL
    obtain ⟨e, he⟩ := except_error_of_isOk_false _ hOk
    have hpc : processCommit tests c cfg (envAll c) noteOk
        = (.error e, (run_tests_for_commit tests c cfg (envAll c)).2) := by
      unfold processCommit
      rw [he]
    have hpcs : (processCommits tests cfg envAll noteOk (c :: rest)).2
        = (run_tests_for_commit tests c cfg (envAll c)).2 := by
      unfold processCommits
      rw [hpc]
    refine ⟨?_, hpcs⟩
    rw [hpcs]
    exact run_tests_for_commit_no_notes tests c cfg (envAll c)
  · intro results e hres hupd
    have hpc1 : (processCommit tests c cfg (envAll c) noteOk).1 = .error e := by
      unfold processCommit
      rw [hres]
      exact hupd
    have hpc2 : (processCommit tests c cfg (envAll c) noteOk).2
        = (run_tests_for_commit tests c cfg (envAll c)).2
            ++ (update_git_notes c results noteOk).2 := by
      unfold processCommit
      rw [hres]
    constructor
    · show (processCommits tests cfg envAll noteOk (c :: rest)).1 = Except.error e
      unfold processCommits
      rw [hpc1]
    · show (processCommits tests cfg envAll noteOk (c :: rest)).2
          = (run_tests_for_commit tests c cfg (envAll c)).2
              ++ (update_git_notes c results noteOk).2
      unfold processCommits
      rw [hpc1]
      exact hpc2

/-- C7 counterexample, two scenarios.  First, a provision error: two tests
for commit c1, t1's worktree provisioning fails, t2's job runs to a passing
verdict, keep_going is set and a second commit c2 is pending.  The whole
run aborts with t1's error: t2's verdict (computed, as the third conjunct
shows) is discarded, no note command at all is issued, and the trace —
listed in full — holds no effect for commit c2.  Second, a store error:
both jobs pass but the add_note for t2's verdict fails.  The run aborts,
the issued note commands stop at the failing one (t1's verdict note was
already issued and, per the noteOk conjuncts, succeeded, so that verdict
remains written while t2's verdict and the summary never are), and again
nothing happens for commit c2 although keep_going was set.  Both scenarios
contradict the claim that provision/execution/store errors are scoped to
the single job, leave other jobs' verdicts intact, and let other commits
proceed under keep_going. -/
theorem c7_counterexample :
    ((cmd_run ⟨"/repo"⟩ [⟨"t1", "x"⟩, ⟨"t2", "y"⟩] "head" none true
        false false false true false false ["c1", "c2"] (some "/wt")
        (fun _ t => if t == "t1" then ⟨false, some ⟨0, "", ""⟩, true⟩
          else ⟨true, some ⟨0, "", ""⟩, true⟩) (fun _ _ _ => true)).1
      = Except.error "Git command failed" ∧
    noteCount (cmd_run ⟨"/repo"⟩ [⟨"t1", "x"⟩, ⟨"t2", "y"⟩] "head" none true
        false false false true false false ["c1", "c2"] (some "/wt")
        (fun _ t => if t == "t1" then ⟨false, some ⟨0, "", ""⟩, true⟩
          else ⟨true, some ⟨0, "", ""⟩, true⟩) (fun _ _ _ => true)).2 = 0 ∧
    (run_single_test ⟨"t2", "y"⟩ "c1" (to_linked_worktree_config ⟨"/repo"⟩ "/wt")
        ⟨true, some ⟨0, "", ""⟩, true⟩).1 = Except.ok ⟨"t2", true, "", ""⟩ ∧
    (cmd_run ⟨"/repo"⟩ [⟨"t1", "x"⟩, ⟨"t2", "y"⟩] "head" none true
        false false false true false false ["c1", "c2"] (some "/wt")
        (fun _ t => if t == "t1" then ⟨false, some ⟨0, "", ""⟩, true⟩
          else ⟨true, some ⟨0, "", ""⟩, true⟩) (fun _ _ _ => true)).2
      = [Effect.createDirAll "/wt/c1/t1",
         Effect.git ["worktree", "add", "--detach", "/wt/c1/t1", "c1"],
         Effect.createDirAll "/wt/c1/t2",
         Effect.git ["worktree", "add", "--detach", "/wt/c1/t2", "c1"],
         Effect.exec "sh" ["-c", "y"] "/wt/c1/t2" false [],
         Effect.git ["worktree", "remove", "--force", "/wt/c1/t2"]]) ∧
    ((cmd_run ⟨"/repo"⟩ [⟨"t1", "x"⟩, ⟨"t2", "y"⟩] "head" none true
        false false false true false false ["c1", "c2"] (some "/wt")
        (fun _ _ => ⟨true, some ⟨0, "", ""⟩, true⟩)
        (fun ref _ _ => !(ref == "refs/notes/tests/t2"))).1
      = Except.error "Git command failed" ∧
    (cmd_run ⟨"/repo"⟩ [⟨"t1", "x"⟩, ⟨"t2", "y"⟩] "head" none true
        false false false true false false ["c1", "c2"] (some "/wt")
        (fun _ _ => ⟨true, some ⟨0, "", ""⟩, true⟩)
        (fun ref _ _ => !(ref == "refs/notes/tests/t2"))).2
      = [Effect.createDirAll "/wt/c1/t1",
         Effect.git ["worktree", "add", "--detach", "/wt/c1/t1", "c1"],
         Effect.exec "sh" ["-c", "x"] "/wt/c1/t1" false [],
         Effect.git ["worktree", "remove", "--force", "/wt/c1/t1"],
         Effect.createDirAll "/wt/c1/t2",
         Effect.git ["worktree", "add", "--detach", "/wt/c1/t2", "c1"],
         Effect.exec "sh" ["-c", "y"] "/wt/c1/t2" false [],
         Effect.git ["worktree", "remove", "--force", "/wt/c1/t2"],
         addNote "refs/notes/tests/t1" "c1^\x7btree\x7d" "✓",
         addNote "refs/notes/tests/t2" "c1^\x7btree\x7d" "✓"] ∧
    (fun ref _ _ => !(ref == "refs/notes/tests/t2"))
        "refs/notes/tests/t1" "c1^\x7btree\x7d" "✓" = true ∧
    (fun ref _ _ => !(ref == "refs/notes/tests/t2"))
        "refs/notes/tests/t2" "c1^\x7btree\x7d" "✓" = false) := by
  refine ⟨⟨?_, ?_, ?_, ?_⟩, ⟨?_, ?_, ?_, ?_⟩⟩ <;> rfl

theorem c7_amended_witness :
    (∃ results,
      (run_tests_for_commit [⟨"t1", "x"⟩] "c1" (WorktreeConfig.main ⟨"/repo"⟩)
          ((fun _ _ => (⟨true, some ⟨1, "", ""⟩, true⟩ : JobEnv)) "c1")).1
        = Except.ok results ∧
      results.length = [(⟨"t1", "x"⟩ : GitTestCommand)].length ∧
      noteCount (processCommit [⟨"t1", "x"⟩] "c1" (WorktreeConfig.main ⟨"/repo"⟩)
          ((fun _ _ => (⟨true, some ⟨1, "", ""⟩, true⟩ : JobEnv)) "c1")
          (fun _ _ _ => true)).2
        = [(⟨"t1", "x"⟩ : GitTestCommand)].length + 1) ∧
    (noteCount (processCommits [⟨"t1", "x"⟩] (WorktreeConfig.main ⟨"/repo"⟩)
          (fun _ _ => (⟨true, none, true⟩ : JobEnv)) (fun _ _ _ => true)
          ["c1", "c2"]).2 = 0 ∧
      (processCommits [⟨"t1", "x"⟩] (WorktreeConfig.main ⟨"/repo"⟩)
          (fun _ _ => (⟨true, none, true⟩ : JobEnv)) (fun _ _ _ => true)
          ["c1", "c2"]).2
        = (run_tests_for_commit [⟨"t1", "x"⟩] "c1" (WorktreeConfig.main ⟨"/repo"⟩)
            ((fun _ _ => (⟨true, none, true⟩ : JobEnv)) "c1")).2) ∧
    ((processCommits [⟨"t1", "x"⟩] (WorktreeConfig.main ⟨"/repo"⟩)
          (fun _ _ => (⟨true, some ⟨0, "", ""⟩, true⟩ : JobEnv))
          (fun ref _ _ => !(ref == "refs/notes/tests/t1")) ["c1", "c2"]).1
        = Except.error "Git command failed" ∧
      (processCommits [⟨"t1", "x"⟩] (WorktreeConfig.main ⟨"/repo"⟩)
          (fun _ _ => (⟨true, some ⟨0, "", ""⟩, true⟩ : JobEnv))
          (fun ref _ _ => !(ref == "refs/notes/tests/t1")) ["c1", "c2"]).2
        = (run_tests_for_commit [⟨"t1", "x"⟩] "c1" (WorktreeConfig.main ⟨"/repo"⟩)
            ((fun _ _ => (⟨true, some ⟨0, "", ""⟩, true⟩ : JobEnv)) "c1")).2
            ++ (update_git_notes "c1" [⟨"t1", true, "", ""⟩]
                (fun ref _ _ => !(ref == "refs/notes/tests/t1"))).2) :=
  ⟨(c7_amended_error_scope [⟨"t1", "x"⟩] "c1" ["c2"] (WorktreeConfig.main ⟨"/repo"⟩)
      (fun _ _ => ⟨true, some ⟨1, "", ""⟩, true⟩) (fun _ _ _ => true)).1
      (by decide) (fun _ _ _ => rfl),
   (c7_amended_error_scope [⟨"t1", "x"⟩] "c1" ["c2"] (WorktreeConfig.main ⟨"/repo"⟩)
      (fun _ _ => ⟨true, none, true⟩) (fun _ _ _ => true)).2.1
      ⟨⟨"t1", "x"⟩, by decide, by decide⟩,
   (c7_amended_error_scope [⟨"t1", "x"⟩] "c1" ["c2"] (WorktreeConfig.main ⟨"/repo"⟩)
      (fun _ _ => ⟨true, some ⟨0, "", ""⟩, true⟩)
      (fun ref _ _ => !(ref == "refs/notes/tests/t1"))).2.2
      [⟨"t1", true, "", ""⟩] "Git command failed" rfl rfl⟩

/-- C1 (code bug): the run pipeline never consults the result store — no
function between cmd_run and run_single_test reads a note before executing —
so running the same test against the same unchanged commit a second time
executes the test command again.  Each of two identical runs performs one
execution (the concatenated trace holds two), where the claim — and the
program's own help text, lib.rs 393-394, "The intelligence not to re-run a
test whose results are already known" — requires zero re-executions and a
cache hit the second time. -/
theorem c1_second_run_reexecutes :
    execCount (cmd_run ⟨"/repo"⟩ [⟨"default", "true"⟩] "head" (some "default")
        false false false false false false false ["c1"] (some "/wt")
        (fun _ _ => ⟨true, some ⟨0, "", ""⟩, true⟩) (fun _ _ _ => true)).2 = 1 ∧
    execCount ((cmd_run ⟨"/repo"⟩ [⟨"default", "true"⟩] "head" (some "default")
          false false false false false false false ["c1"] (some "/wt")
          (fun _ _ => ⟨true, some ⟨0, "", ""⟩, true⟩) (fun _ _ _ => true)).2
        ++ (cmd_run ⟨"/repo"⟩ [⟨"default", "true"⟩] "head" (some "default")
          false false false false false false false ["c1"] (some "/wt")
          (fun _ _ => ⟨true, some ⟨0, "", ""⟩, true⟩) (fun _ _ _ => true)).2) = 2 :=
  ⟨rfl, rfl⟩

/-- C3 (code bug): cmd_run receives dry_run but its body never reads it
(lib.rs 709-753), so a dry run still creates a worktree, executes the test
and writes verdict and summary notes — byte for byte the same outcome as
the non-dry run — where the claim (and the flag's own help text, lib.rs
518-519, "show known results, without running any new tests") requires no
worktree creation and no store writes. -/
theorem c3_dry_run_still_executes_and_writes :
    (cmd_run ⟨"/repo"⟩ [⟨"default", "true"⟩] "head" (some "default")
        false false false false false true false ["c1"] (some "/wt")
        (fun _ _ => ⟨true, some ⟨0, "", ""⟩, true⟩) (fun _ _ _ => true)).2.countP Effect.isWorktreeAdd
      = 1 ∧
    noteCount (cmd_run ⟨"/repo"⟩ [⟨"default", "true"⟩] "head" (some "default")
        false false false false false true false ["c1"] (some "/wt")
        (fun _ _ => ⟨true, some ⟨0, "", ""⟩, true⟩) (fun _ _ _ => true)).2 = 2 ∧
    execCount (cmd_run ⟨"/repo"⟩ [⟨"default", "true"⟩] "head" (some "default")
        false false false false false true false ["c1"] (some "/wt")
        (fun _ _ => ⟨true, some ⟨0, "", ""⟩, true⟩) (fun _ _ _ => true)).2 = 1 ∧
    cmd_run ⟨"/repo"⟩ [⟨"default", "true"⟩] "head" (some "default")
        false false false false false true false ["c1"] (some "/wt")
        (fun _ _ => ⟨true, some ⟨0, "", ""⟩, true⟩) (fun _ _ _ => true)
      = cmd_run ⟨"/repo"⟩ [⟨"default", "true"⟩] "head" (some "default")
          false false false false false false false ["c1"] (some "/wt")
          (fun _ _ => ⟨true, some ⟨0, "", ""⟩, true⟩) (fun _ _ _ => true) :=
  ⟨rfl, rfl, rfl, rfl⟩

/-- C4 (code bug): three commits where the test fails (exit code 1) on the
second, without keep_going.  cmd_run never reads keep_going (lib.rs
709-753) and a failing test produces an Ok(TestResult) rather than an
error, so the loop runs all three commits: the run succeeds, three
executions happen, and the third commit's summary note is written — where
the claim requires the default run to stop before the third commit.  The
keep_going run behaves identically (last conjunct), so the claim's
keep_going half — execute and report on all three — does hold. -/
theorem c4_no_fail_fast :
    (cmd_run ⟨"/repo"⟩ [⟨"default", "true"⟩] "head" (some "default")
        false false false false false false false ["c1", "c2", "c3"] (some "/wt")
        (fun c _ => ⟨true, some ⟨if c == "c2" then 1 else 0, "", ""⟩, true⟩) (fun _ _ _ => true)).1
      = Except.ok () ∧
    execCount (cmd_run ⟨"/repo"⟩ [⟨"default", "true"⟩] "head" (some "default")
        false false false false false false false ["c1", "c2", "c3"] (some "/wt")
        (fun c _ => ⟨true, some ⟨if c == "c2" then 1 else 0, "", ""⟩, true⟩) (fun _ _ _ => true)).2
      = 3 ∧
    addNote "refs/notes/commits" "c3" "default: ✓"
      ∈ (cmd_run ⟨"/repo"⟩ [⟨"default", "true"⟩] "head" (some "default")
          false false false false false false false ["c1", "c2", "c3"] (some "/wt")
          (fun c _ => ⟨true, some ⟨if c == "c2" then 1 else 0, "", ""⟩, true⟩) (fun _ _ _ => true)).2 ∧
    cmd_run ⟨"/repo"⟩ [⟨"default", "true"⟩] "head" (some "default")
        false false false false true false false ["c1", "c2", "c3"] (some "/wt")
        (fun c _ => ⟨true, some ⟨if c == "c2" then 1 else 0, "", ""⟩, true⟩) (fun _ _ _ => true)
      = cmd_run ⟨"/repo"⟩ [⟨"default", "true"⟩] "head" (some "default")
          false false false false false false false ["c1", "c2", "c3"] (some "/wt")
          (fun c _ => ⟨true, some ⟨if c == "c2" then 1 else 0, "", ""⟩, true⟩) (fun _ _ _ => true) := by
  refine ⟨rfl, rfl, ?_, rfl⟩
  decide
